import Mathlib

/-!
Verification of the docugen desktop element-identification subsystem.

Each definition below is a shallow embedding of the corresponding Python
function or class from `src/docugen/desktop/`; machine arithmetic on
coordinates is modelled with `Int`, decimal scores and timestamps with `ℚ`
(exact rational arithmetic in place of IEEE doubles), Python dicts with
association lists, and effectful inputs (screenshots, clock, accessibility
backend, vision model) with explicit parameters.
-/

set_option autoImplicit false

namespace Docugen

/-! ## coordinate_transforms.py -/

/-- Rectangular bounds, mirroring `element_metadata.Rect` (integer pixels). -/
structure Rect where
  x : Int
  y : Int
  width : Int
  height : Int
  deriving DecidableEq, Repr

/-- Embedding of `coordinate_transforms.clip_bounds_to_image`. -/
def clip_bounds_to_image (bounds : Rect) (image_width image_height : Int) : Rect :=
  -- Clamp x, y to [0, image dimensions]
  let new_x := max 0 (min bounds.x image_width)
  let new_y := max 0 (min bounds.y image_height)
  -- How much was clipped from left/top
  let x_clip := new_x - bounds.x
  let y_clip := new_y - bounds.y
  -- Adjust width/height for the clipping and the right/bottom edges
  let new_width := max 1 (min (bounds.width - x_clip) (image_width - new_x))
  let new_height := max 1 (min (bounds.height - y_clip) (image_height - new_y))
  { x := new_x, y := new_y, width := new_width, height := new_height }

/-! ## metadata_normalization.py -/

/-- Embedding of `metadata_normalization.get_confidence_score`; the Python
float penalties 0.1 / 0.2 / 0.3 are modelled as exact rationals. -/
def get_confidence_score (query_latency_ms : ℚ) (fallback_used : Bool)
    (permission_status : Option String) : ℚ :=
  let score : ℚ := 1
  let score := if query_latency_ms > 1000 then score - 1/10 else score
  let score := if fallback_used then score - 2/10 else score
  let score := if permission_status = some "denied" then score - 3/10 else score
  max 0 score

/-! ## Association lists (model of Python dict / OrderedDict)

A Python dict is modelled as a `List (K × V)` in insertion order with
pairwise-distinct keys (the `Nodup` hypothesis where a proof needs it).
For an `OrderedDict` used as an LRU structure the head of the list is the
oldest (least-recently-used) entry and the last element the newest. -/

/-- Lookup of a key in an association list (Python `dict[key]` / `in`). -/
def alookup {K V : Type} [DecidableEq K] : List (K × V) → K → Option V
  | [], _ => none
  | p :: rest, k => if p.1 = k then some p.2 else alookup rest k

/-- Removal of a key from an association list (Python `del dict[key]`). -/
def aerase {K V : Type} [DecidableEq K] : List (K × V) → K → List (K × V)
  | [], _ => []
  | p :: rest, k => if p.1 = k then rest else p :: aerase rest k

/-- Keys of an association list, in order. -/
def akeys {K V : Type} (l : List (K × V)) : List K := l.map Prod.fst

/-- Model of `OrderedDict.move_to_end(key)`: the entry for the key is moved
to the back (most-recently-used position); absent keys leave the list
unchanged (the source only calls it on present keys). -/
def moveToEnd {K V : Type} [DecidableEq K] (l : List (K × V)) (k : K) : List (K × V) :=
  match alookup l k with
  | none => l
  | some v => aerase l k ++ [(k, v)]

/-! ## annotation_cache.py -/

/-- Embedding of `annotation_cache.ElementCache`: the `OrderedDict` is the
association list `cache` (head = least recently used), with the hit/miss
statistics alongside. -/
structure ElementCache (K V : Type) where
  cache : List (K × V)
  max_size : Nat
  hits : Nat
  misses : Nat
  deriving Repr

/-- Fresh cache as built by `ElementCache.__init__`. -/
def ElementCache.empty (K V : Type) (max_size : Nat) : ElementCache K V :=
  { cache := [], max_size := max_size, hits := 0, misses := 0 }

/-- Embedding of `ElementCache.get`: on a hit the entry is promoted to
most-recently-used and the hit counter incremented; on a miss the miss
counter is incremented. Returns the looked-up value with the new state. -/
def ElementCache.get {K V : Type} [DecidableEq K]
    (c : ElementCache K V) (key : K) : Option V × ElementCache K V :=
  match alookup c.cache key with
  | some v =>
      (some v, { c with cache := moveToEnd c.cache key, hits := c.hits + 1 })
  | none => (none, { c with misses := c.misses + 1 })

/-- Embedding of `ElementCache.put`: an already-present key is only moved to
the most-recently-used position (the stored value is not replaced, exactly
as in the source); a new key is appended and, if the size limit is now
exceeded, the least-recently-used entry (list head) is evicted. -/
def ElementCache.put {K V : Type} [DecidableEq K]
    (c : ElementCache K V) (key : K) (value : V) : ElementCache K V :=
  if (alookup c.cache key).isSome then
    { c with cache := moveToEnd c.cache key }
  else
    let cache := c.cache ++ [(key, value)]
    if cache.length > c.max_size then { c with cache := cache.tail }
    else { c with cache := cache }

/-- Embedding of `ElementCache.hit_rate`. -/
def ElementCache.hit_rate {K V : Type} (c : ElementCache K V) : ℚ :=
  if c.hits + c.misses = 0 then 0 else (c.hits : ℚ) / ((c.hits : ℚ) + (c.misses : ℚ))

/-- Folding a sequence of insertions into the cache, for the scenario
"insert max_size + 1 entries with distinct keys". -/
def ElementCache.putAll {K V : Type} [DecidableEq K]
    (c : ElementCache K V) (ps : List (K × V)) : ElementCache K V :=
  ps.foldl (fun acc p => acc.put p.1 p.2) c

/-- Embedding of `annotation_cache.make_cache_key`: coordinates are bucketed
to a 10 px grid with Python floor division. -/
def make_cache_key (platform : String) (app_name : Option String)
    (x y : Int) : String × String × Int × Int :=
  -- Python `app_name or "unknown"`: both None and "" fall back to "unknown"
  let app := match app_name with
    | none => "unknown"
    | some s => if s = "" then "unknown" else s
  (platform, app, Int.fdiv x 10, Int.fdiv y 10)

/-! ## vision_cache.py -/

/-- Embedding of `vision_cache.CacheEntry`; element lists are abstracted by a
type parameter `E` and timestamps are rationals (seconds). -/
structure VCacheEntry (E : Type) where
  elements : E
  timestamp : ℚ
  image_hash : String
  deriving Repr

/-- Embedding of `vision_cache.VisionCache`. The backing dict is an
association list keyed by the image-content hash. -/
structure VisionCache (E : Type) where
  cache : List (String × VCacheEntry E)
  ttl : ℚ
  max_entries : Nat
  hits : Nat
  misses : Nat
  deriving Repr

/-- Embedding of `VisionCache.get`. The SHA-256 hashing step
(`VisionCache._hash`) is modelled by the function argument `hash`, and the
`time.time()` read by the explicit `now` argument. An entry found but older
than the TTL is deleted and the access counted as a miss. -/
def VisionCache.get {E : Type} (hash : List Nat → String)
    (c : VisionCache E) (image_bytes : List Nat) (now : ℚ) :
    Option E × VisionCache E :=
  let key := hash image_bytes
  match Docugen.alookup c.cache key with
  | none => (none, { c with misses := c.misses + 1 })
  | some entry =>
      if now - entry.timestamp > c.ttl then
        (none, { c with cache := Docugen.aerase c.cache key,
                        misses := c.misses + 1 })
      else
        (some entry.elements, { c with hits := c.hits + 1 })

/-! ## step_detector.py -/

/-- Embedding of `step_detector.StepRecord`; the two `CaptureResult` images
are abstracted as `Nat` identifiers and the SSIM score is a rational. -/
structure StepRecord where
  step_number : Nat
  before_capture : Nat
  after_capture : Nat
  ssim_score : ℚ
  timestamp : ℚ
  description : String
  detection_method : String
  deriving Repr, DecidableEq

/-- Embedding of `step_detector.DetectorConfig` (output_dir omitted: pure
file I/O with no influence on detection state). -/
structure DetectorConfig where
  ssim_threshold : ℚ
  desktop_threshold : ℚ
  debounce_seconds : ℚ
  mode : String
  deriving Repr

/-- Default `DetectorConfig` field values from the source. -/
def DetectorConfig.default : DetectorConfig :=
  { ssim_threshold := 9/10, desktop_threshold := 87/100,
    debounce_seconds := 3/10, mode := "desktop" }

/-- Embedding of `DetectorConfig.effective_threshold`. -/
def DetectorConfig.effective_threshold (c : DetectorConfig) : ℚ :=
  if c.mode = "desktop" then c.desktop_threshold else c.ssim_threshold

/-- Embedding of the `StepDetector` mutable state: recorded steps, the
retained "before" capture, and the time of the last recorded step. -/
structure StepDetector where
  config : DetectorConfig
  steps : List StepRecord
  before : Option Nat
  last_step_time : ℚ
  deriving Repr

/-- Embedding of `StepDetector.capture_after`. The effectful inputs are made
explicit: `screenshot` is the image `_take_screenshot()` returns, `ssim` is
the `_compare` similarity oracle, `now` is `time.time()`. Returns the
optional new `StepRecord` together with the updated detector state. -/
def StepDetector.capture_after (d : StepDetector) (ssim : Nat → Nat → ℚ)
    (screenshot : Nat) (now : ℚ) (description : String) :
    Option StepRecord × StepDetector :=
  match d.before with
  | none =>
      -- capture_after called without capture_before: warn, retake, no step
      (none, { d with before := some screenshot })
  | some before =>
      if now - d.last_step_time < d.config.debounce_seconds then
        (none, d)
      else
        let after := screenshot
        let score := ssim before after
        let threshold := d.config.effective_threshold
        if score < threshold then
          let step : StepRecord :=
            { step_number := d.steps.length + 1, before_capture := before,
              after_capture := after, ssim_score := score, timestamp := now,
              description := description, detection_method := "ssim" }
          (some step,
            { d with
                steps := d.steps ++ [step]
                last_step_time := now
                before := some after })
        else
          (none, d)

/-- Renumbering of a list of steps contiguously starting at `n`. -/
def renumberFrom : Nat → List StepRecord → List StepRecord
  | _, [] => []
  | n, s :: rest => { s with step_number := n } :: renumberFrom (n + 1) rest

/-- Predicate for the steps `redetect` keeps: manual steps are always kept,
similarity-detected steps only when their score is below the threshold. -/
def keptByRedetect (threshold : ℚ) (s : StepRecord) : Bool :=
  s.detection_method = "manual" || s.ssim_score < threshold

/-- Modelled from the spec: `StepDetector.redetect` is exercised by the test
suite but its implementation is not part of the source tree under src/.
Per spec §4.6 it re-evaluates all similarity-detected (non-manual) steps
against a new threshold, removes any whose score is not below it, never
removes a manual step, and renumbers the remaining steps contiguously
starting at 1. Returns the removed records with the updated detector. -/
def StepDetector.redetect (d : StepDetector) (threshold : ℚ) :
    List StepRecord × StepDetector :=
  let removed := d.steps.filter (fun s => !keptByRedetect threshold s)
  let kept := d.steps.filter (keptByRedetect threshold)
  (removed, { d with steps := renumberFrom 1 kept })

/-! ## fallback_config.py -/

/-- Embedding of `fallback_config.FallbackConfig` (the `app_specific_rules`
map is unused by the fallback manager and omitted). -/
structure FallbackConfig where
  timeout_ms : Nat
  retry_strategy : String
  permission_handling : String
  cache_ttl_seconds : ℚ
  max_retries : Nat
  visual_fallback_enabled : Bool
  deriving Repr

/-- Default `FallbackConfig` field values from the source. -/
def FallbackConfig.default : FallbackConfig :=
  { timeout_ms := 100, retry_strategy := "exponential_backoff",
    permission_handling := "auto_fallback", cache_ttl_seconds := 300,
    max_retries := 2, visual_fallback_enabled := true }

/-! ## fallback_manager.py and visual layers: shared dict shapes -/

/-- Python dict assignment `d[k] = v`: replace in place if the key exists,
otherwise append at the end (insertion order preserved). -/
def dinsert {K V : Type} [DecidableEq K] : List (K × V) → K → V → List (K × V)
  | [], k, v => [(k, v)]
  | p :: rest, k, v => if p.1 = k then (k, v) :: rest else p :: dinsert rest k v

/-- Truthiness of an optional string (Python `if app_name:`): both `None`
and the empty string are falsy. -/
def optTruthy : Option String → Bool
  | none => false
  | some s => s ≠ ""

/-- Raw element dict as produced by an accessibility backend or by the
visual analyzer: every field may be missing (`dict.get` with defaults). -/
structure ElementDict where
  name : Option String
  type : Option String
  bounds : Option Rect
  confidence : Option ℚ
  source : Option String
  deriving Repr

/-- Embedding of `fallback_manager.ElementMetadata` (the dataclass local to
that module). -/
structure FMElementMetadata where
  name : String
  type : String
  bounds : Rect
  confidence_score : ℚ
  source : String
  fallback_used : Bool
  fallback_reason : Option String
  deriving Repr

/-- One `MetricsCollector.record_event` call (latency omitted: wall-clock
only, never read back by the subsystem under verification). -/
structure MetricEvent where
  app_name : Option String
  platform : String
  source : String
  success : Bool
  fallback_reason : Option String
  deriving Repr

/-- Outcome of one accessibility-backend query as seen through
`_get_element_with_timeout`: a dict, a `None`, or one of the exception
classes caught by `_try_accessibility_api`. For a generic exception the
flag records whether "not found" occurs in the lowercased message. -/
inductive AccessResult where
  | success (element : ElementDict)
  | noElement
  | timeout
  | permissionError
  | failure (not_found : Bool)
  deriving Repr

/-- Effectful inputs of a single `get_element_metadata_with_fallback` call:
the accessibility backend's behaviour, the macOS permission check, the
visual analyzer's answer and the current clock reading. -/
structure RequestEnv where
  accessResult : AccessResult
  permissionGranted : Bool
  visualResult : Option ElementDict
  now : ℚ
  deriving Repr

/-- Embedding of the `FallbackManager` mutable state, together with the
relevant `MetricsCollector` state. -/
structure FallbackManager where
  config : FallbackConfig
  app_timeout_counts : List (String × Nat)
  app_support_cache : List (String × Bool)
  cache_timestamps : List (String × ℚ)
  metrics : List MetricEvent
  metrics_cache_hits : Nat
  metrics_cache_misses : Nat
  deriving Repr

/-- Fresh manager as built by `FallbackManager.__init__`. -/
def FallbackManager.init (config : FallbackConfig) : FallbackManager :=
  { config := config, app_timeout_counts := [], app_support_cache := [],
    cache_timestamps := [], metrics := [], metrics_cache_hits := 0,
    metrics_cache_misses := 0 }

/-- Embedding of `FallbackManager._is_app_cached_unsupported`, including its
side effect of deleting an expired cache entry. -/
def FallbackManager.isAppCachedUnsupported (m : FallbackManager)
    (app : String) (now : ℚ) : Bool × FallbackManager :=
  match alookup m.app_support_cache app with
  | none => (false, m)
  | some supported =>
      let timestamp := (alookup m.cache_timestamps app).getD 0
      if now - timestamp > m.config.cache_ttl_seconds then
        (false,
          { m with
              app_support_cache := aerase m.app_support_cache app
              cache_timestamps := aerase m.cache_timestamps app })
      else
        (!supported, m)

/-- Embedding of `FallbackManager._cache_app_unsupported`. -/
def FallbackManager.cacheAppUnsupported (m : FallbackManager)
    (app : String) (now : ℚ) : FallbackManager :=
  { m with
      app_support_cache := dinsert m.app_support_cache app false
      cache_timestamps := dinsert m.cache_timestamps app now }

/-- Embedding of `FallbackManager._try_accessibility_api`. The third
component of the result records whether the accessibility backend was
actually invoked (`_get_element_with_timeout` entered), which is false
exactly on the backoff-skip and macOS-permission-precheck early returns. -/
def FallbackManager.tryAccessibilityApi (m : FallbackManager)
    (env : RequestEnv) (x y : Int) (platform : String)
    (app_name : Option String) :
    Option FMElementMetadata × FallbackManager × Bool :=
  -- Exponential backoff by skipping: never query an app past max_retries
  let backoff :=
    match app_name with
    | some app =>
        optTruthy (some app) &&
          decide (m.config.max_retries ≤ (alookup m.app_timeout_counts app).getD 0)
    | none => false
  if backoff then (none, m, false)
  else if platform = "macos" && !env.permissionGranted then (none, m, false)
  else
    match env.accessResult with
    | .success d =>
        -- Reset the consecutive-timeout counter on success
        let m :=
          match app_name with
          | some app =>
              if optTruthy (some app) then
                { m with app_timeout_counts := dinsert m.app_timeout_counts app 0 }
              else m
          | none => m
        (some { name := d.name.getD "Unknown"
                type := d.type.getD "unknown"
                bounds := d.bounds.getD { x := x, y := y, width := 50, height := 30 }
                confidence_score := d.confidence.getD (9/10)
                source := "accessibility"
                fallback_used := false
                fallback_reason := none }, m, true)
    | .noElement => (none, m, true)
    | .timeout =>
        -- Increment the consecutive-timeout counter
        let m :=
          match app_name with
          | some app =>
              if optTruthy (some app) then
                { m with
                    app_timeout_counts :=
                      dinsert m.app_timeout_counts app
                        ((alookup m.app_timeout_counts app).getD 0 + 1) }
              else m
          | none => m
        (none, m, true)
    | .permissionError => (none, m, true)
    | .failure not_found =>
        let m :=
          match app_name with
          | some app =>
              if optTruthy (some app) && not_found then
                m.cacheAppUnsupported app env.now
              else m
          | none => m
        (none, m, true)

/-- Embedding of `FallbackManager._try_visual_fallback`. -/
def FallbackManager.tryVisualFallback (m : FallbackManager)
    (env : RequestEnv) (x y : Int) (screenshot_path : Option String)
    (app_name : Option String) (platform : String)
    (fallback_reason : String) :
    Option FMElementMetadata × FallbackManager :=
  match screenshot_path with
  | none => (none, m)
  | some _ =>
      match env.visualResult with
      | some d =>
          let m :=
            { m with
                metrics := m.metrics ++
                  [{ app_name := app_name, platform := platform,
                     source := "visual", success := true,
                     fallback_reason := some fallback_reason }] }
          (some { name := d.name.getD "Unknown"
                  type := d.type.getD "unknown"
                  bounds := d.bounds.getD { x := x, y := y, width := 50, height := 30 }
                  confidence_score := d.confidence.getD (1/2)
                  source := "visual"
                  fallback_used := true
                  fallback_reason := some fallback_reason }, m)
      | none =>
          (none,
            { m with
                metrics := m.metrics ++
                  [{ app_name := app_name, platform := platform,
                     source := "visual", success := false,
                     fallback_reason := some fallback_reason }] })

/-- Embedding of `FallbackManager.get_element_metadata_with_fallback`. The
boolean result component records whether the accessibility backend was
invoked during the call. -/
def FallbackManager.getElementMetadataWithFallback (m : FallbackManager)
    (env : RequestEnv) (x y : Int) (platform : String)
    (screenshot_path : Option String) (app_name : Option String) :
    Option FMElementMetadata × FallbackManager × Bool :=
  -- Step 1: app cached as unsupported goes straight to the visual path
  let unsupported :=
    match app_name with
    | some app =>
        if optTruthy (some app) then m.isAppCachedUnsupported app env.now
        else (false, m)
    | none => (false, m)
  let m := unsupported.2
  if unsupported.1 then
    let m := { m with metrics_cache_hits := m.metrics_cache_hits + 1 }
    let r := m.tryVisualFallback env x y screenshot_path app_name platform
      "unsupported"
    (r.1, r.2, false)
  else
    let m := { m with metrics_cache_misses := m.metrics_cache_misses + 1 }
    let step := m.tryAccessibilityApi env x y platform app_name
    let m := step.2.1
    let invoked := step.2.2
    match step.1 with
    | some result =>
        let m :=
          { m with
              metrics := m.metrics ++
                [{ app_name := app_name, platform := platform,
                   source := "accessibility", success := true,
                   fallback_reason := none }] }
        (some result, m, invoked)
    | none =>
        if screenshot_path.isSome && m.config.visual_fallback_enabled then
          let r := m.tryVisualFallback env x y screenshot_path app_name
            platform "error"
          (r.1, r.2, invoked)
        else
          (none, m, invoked)

/-! ## visual_analyzer.py and visual_fallback.py -/

/-- One item of the JSON array parsed by `visual_analyzer._parse_response`:
either not a dict (skipped) or a dict of optional fields. -/
inductive RawItem where
  | notDict
  | dict (d : ElementDict)
  deriving Repr

/-- Embedding of the validation/tagging loop of
`visual_analyzer._parse_response`, starting from the already-parsed JSON
value normalized to a list (code-fence stripping and JSON decoding are pure
text I/O preceding this loop). Items that are not dicts or lack a bounds
field are discarded; missing names/types/confidences get defaults; every
survivor is tagged with source "visual". Returns none when nothing
survives. -/
def parse_response_elements (parsed : List RawItem) : Option (List ElementDict) :=
  let elements := parsed.filterMap fun item =>
    match item with
    | .notDict => none
    | .dict d =>
        match d.bounds with
        | none => none
        | some b =>
            some { name := some (d.name.getD "Unknown")
                   type := some (d.type.getD "unknown")
                   bounds := some b
                   confidence := some (d.confidence.getD (1/2))
                   source := some "visual" }
  if elements.isEmpty then none else some elements

/-- Squared distance from a point to an element's bounds center. The source
(`visual_fallback._select_closest_element`) compares Euclidean distances;
square root is strictly monotone on nonnegatives, so comparing squared
distances selects the same element. -/
def distance_sq_to_bounds (elem : ElementDict) (x y : Int) : ℚ :=
  let bounds := elem.bounds.getD { x := 0, y := 0, width := 0, height := 0 }
  let center_x : ℚ := (bounds.x : ℚ) + (bounds.width : ℚ) / 2
  let center_y : ℚ := (bounds.y : ℚ) + (bounds.height : ℚ) / 2
  (center_x - (x : ℚ)) ^ 2 + (center_y - (y : ℚ)) ^ 2

/-- Embedding of `visual_fallback._select_closest_element`; Python's `min`
returns the first element attaining the minimum. The source only calls it
on lists of length greater than 1; on `[]` we return a dummy (the source
would raise). -/
def select_closest_element (elements : List ElementDict) (x y : Int) : ElementDict :=
  match elements with
  | [] => { name := none, type := none, bounds := none, confidence := none,
            source := none }
  | e :: rest =>
      rest.foldl
        (fun best c =>
          if distance_sq_to_bounds c x y < distance_sq_to_bounds best x y then c
          else best)
        e

/-- Embedding of `visual_fallback.analyze_with_fallback`, taking the result
of the (cache-checked) screenshot analysis as input: closest-element
selection, the 0.7 confidence cap, the defaulting of required fields, and
the "visual" source tag. -/
def analyze_with_fallback (elements : Option (List ElementDict)) (x y : Int) :
    Option ElementDict :=
  match elements with
  | none => none
  | some [] => none
  | some (e :: rest) =>
      let element :=
        if rest.isEmpty then e else select_closest_element (e :: rest) x y
      -- Cap visual confidence at 0.7
      let element :=
        if element.confidence.getD 0 > 7/10 then
          { element with confidence := some (7/10) }
        else element
      -- setdefault of the required fields, and the source tag
      let element :=
        { element with
            name := some (element.name.getD "Unknown")
            type := some (element.type.getD "unknown")
            bounds := some (element.bounds.getD { x := x, y := y, width := 50, height := 30 })
            source := some "visual" }
      some element

/-! ## annotation_config.py and annotation_orchestrator.py -/

/-- Embedding of the `annotation_config.AnnotationConfig` fields read by the
orchestrator. -/
structure AnnotationConfig where
  confidence_threshold : ℚ
  enable_cache : Bool
  element_query_timeout_ms : Nat
  deriving Repr

/-- Default `AnnotationConfig` field values from the source. -/
def AnnotationConfig.default : AnnotationConfig :=
  { confidence_threshold := 8/10, enable_cache := true,
    element_query_timeout_ms := 100 }

/-- Element dict flowing through `annotation_orchestrator`: either the
`to_dict()` of a fallback-manager result (then `fallback_used` is present)
or the dict built by `_fallback_to_visual` (then `fallback_used` is
absent). The `confidence` and `bounds` keys are always set by both
producers and are accessed unconditionally by the orchestrator. -/
structure OrchElem where
  name : Option String
  type : Option String
  bounds : Rect
  confidence : ℚ
  source : String
  fallback_used : Option Bool
  deriving Repr, DecidableEq

/-- Cache key type of the orchestrator's module-level ElementCache. -/
abbrev CacheKey := String × String × Int × Int

/-- Effectful inputs of one `annotate_screenshot` call: the outcome of
`_query_element_with_timeout` (accessibility-only element identification;
none on timeout, exception, or no element) and the outcome of
`_fallback_to_visual` (none when visual analysis fails). -/
structure OrchEnv where
  queryResult : Option OrchElem
  visualResult : Option OrchElem
  deriving Repr

/-- Embedding of `annotation_orchestrator._get_element_with_cache`, with
the module-level `_element_cache` passed and returned explicitly. -/
def get_element_with_cache (cache : ElementCache CacheKey OrchElem)
    (env : OrchEnv) (coords : Int × Int) (platform : String)
    (app_name : Option String) (config : AnnotationConfig) :
    Option OrchElem × ElementCache CacheKey OrchElem :=
  if config.enable_cache then
    let key := make_cache_key platform app_name coords.1 coords.2
    let looked := cache.get key
    match looked.1 with
    | some cached => (some cached, looked.2)
    | none =>
        match env.queryResult with
        | some element => (some element, looked.2.put key element)
        | none => (none, looked.2)
  else
    (env.queryResult, cache)

/-- What the element-identification half of `annotate_screenshot` decides
to render: the bounds, provenance tag, and element name/type handed to the
renderer. -/
structure AnnotationChoice where
  bounds : Rect
  source : String
  element_name : String
  element_type : String
  deriving Repr, DecidableEq

/-- Embedding of the element-identification and caching portion of
`annotation_orchestrator.annotate_screenshot` (the image decoding, DPI
lookup and pixel rendering that surround it do not touch the cache or the
choice of element). -/
def annotate_screenshot_identify (cache : ElementCache CacheKey OrchElem)
    (env : OrchEnv) (coords : Int × Int) (platform : String)
    (app_name : Option String) (cfg : AnnotationConfig) :
    AnnotationChoice × ElementCache CacheKey OrchElem :=
  let step := get_element_with_cache cache env coords platform app_name cfg
  let cache := step.2
  match step.1 with
  | some element =>
      if cfg.confidence_threshold ≤ element.confidence then
        ({ bounds := element.bounds, source := element.source,
           element_name := element.name.getD "Unknown",
           element_type := element.type.getD "unknown" }, cache)
      else
        -- Fallback to visual analysis or simple click indicator
        match env.visualResult with
        | some e =>
            ({ bounds := e.bounds, source := "visual_fallback",
               element_name := e.name.getD "Element",
               element_type := e.type.getD "unknown" }, cache)
        | none =>
            ({ bounds := { x := coords.1 - 10, y := coords.2 - 10,
                           width := 20, height := 20 },
               source := "click_indicator", element_name := "Click",
               element_type := "indicator" }, cache)
  | none =>
      match env.visualResult with
      | some e =>
          ({ bounds := e.bounds, source := "visual_fallback",
             element_name := e.name.getD "Element",
             element_type := e.type.getD "unknown" }, cache)
      | none =>
          ({ bounds := { x := coords.1 - 10, y := coords.2 - 10,
                         width := 20, height := 20 },
             source := "click_indicator", element_name := "Click",
             element_type := "indicator" }, cache)

/-- Forgetting a step's number, to compare step lists up to renumbering. -/
def eraseNum (s : StepRecord) : StepRecord := { s with step_number := 0 }

/-! ## Concrete instances exercised by the closed theorems below -/

/-- A significant similarity-detected step (score 0.50). -/
def stepMajor : StepRecord :=
  { step_number := 1, before_capture := 0, after_capture := 1,
    ssim_score := 1/2, timestamp := 1, description := "major change",
    detection_method := "ssim" }

/-- A subtle similarity-detected step (score 0.85). -/
def stepSubtle : StepRecord :=
  { step_number := 2, before_capture := 1, after_capture := 2,
    ssim_score := 17/20, timestamp := 2, description := "subtle change",
    detection_method := "ssim" }

/-- A manually recorded step (score 0.95). -/
def stepManualW : StepRecord :=
  { step_number := 3, before_capture := 2, after_capture := 3,
    ssim_score := 19/20, timestamp := 3, description := "user marked",
    detection_method := "manual" }

/-- A detector holding the three steps above. -/
def detectorW : StepDetector :=
  { config := DetectorConfig.default, steps := [stepMajor, stepSubtle, stepManualW],
    before := some 3, last_step_time := 3 }

/-- A manager whose "SlowApp" counter has reached max_retries = 2. -/
def slowAppManager : FallbackManager :=
  { config := FallbackConfig.default, app_timeout_counts := [("SlowApp", 2)],
    app_support_cache := [], cache_timestamps := [], metrics := [],
    metrics_cache_hits := 0, metrics_cache_misses := 0 }

/-- A visual-analysis element dict with model-reported confidence 0.95. -/
def visualDictW : ElementDict :=
  { name := some "Save", type := some "button",
    bounds := some ⟨50, 60, 80, 30⟩, confidence := some (19/20),
    source := some "visual" }

/-- Environment in which the accessibility backend times out and the visual
analyzer answers. -/
def timeoutEnv : RequestEnv :=
  { accessResult := .timeout, permissionGranted := true,
    visualResult := some visualDictW, now := 0 }

/-- An accessibility element dict as returned by a backend. -/
def accessDictW : ElementDict :=
  { name := some "OK", type := some "button", bounds := some ⟨1, 2, 3, 4⟩,
    confidence := some 1, source := none }

/-- Environment in which the accessibility backend answers successfully. -/
def successEnv : RequestEnv :=
  { accessResult := .success accessDictW, permissionGranted := true,
    visualResult := none, now := 0 }

/-- A one-element parsed model response reporting confidence 0.95. -/
def parsedW : List RawItem :=
  [RawItem.dict
    { name := some "Save"
      type := some "button"
      bounds := some ⟨50, 60, 80, 30⟩
      confidence := some (19/20)
      source := none }]

/-- Environment whose visual result flows through the full vision chain
(parse, closest-element selection, confidence cap). -/
def visionEnvW : RequestEnv :=
  { accessResult := .timeout, permissionGranted := true,
    visualResult := analyze_with_fallback (parse_response_elements parsedW) 55 70,
    now := 0 }

/-- The capped metadata produced from parsedW by the vision chain. -/
def visionElemW : FMElementMetadata :=
  { name := "Save", type := "button", bounds := ⟨50, 60, 80, 30⟩,
    confidence_score := 7/10, source := "visual", fallback_used := true,
    fallback_reason := some "timeout" }

/-- The metadata the FallbackManager's visual path builds from visualDictW
on a timeout fallback. -/
def timeoutVisualElemW : FMElementMetadata :=
  { name := "Save", type := "button", bounds := ⟨50, 60, 80, 30⟩,
    confidence_score := 19/20, source := "visual", fallback_used := true,
    fallback_reason := some "timeout" }

/-- A visual-fallback element as seen by the orchestrator. -/
def orchVisualElemW : OrchElem :=
  { name := some "Save", type := some "button", bounds := ⟨50, 60, 80, 30⟩,
    confidence := 3/5, source := "visual", fallback_used := none }

/-- Orchestrator environment: element identification fails, visual fallback
succeeds. -/
def orchEnvW : OrchEnv :=
  { queryResult := none, visualResult := some orchVisualElemW }

/-! ## Association-list lemmas -/

theorem mem_akeys_cons {K V : Type} (p : K × V) (rest : List (K × V)) (k : K) :
    k ∈ akeys (p :: rest) ↔ k = p.1 ∨ k ∈ akeys rest := by
  simp [akeys]

theorem alookup_eq_none_iff {K V : Type} [DecidableEq K] (l : List (K × V)) (k : K) :
    alookup l k = none ↔ k ∉ akeys l := by
  induction l with
  | nil => simp [alookup, akeys]
  | cons p rest ih =>
      by_cases h : p.1 = k
      · constructor
        · intro hl
          simp [alookup, h] at hl
        · intro hk
          exact absurd ((mem_akeys_cons p rest k).mpr (Or.inl h.symm)) hk
      · constructor
        · intro hl hk
          rcases (mem_akeys_cons p rest k).mp hk with h1 | h1
          · exact h h1.symm
          · exact (ih.mp (by simpa [alookup, h] using hl)) h1
        · intro hk
          have h2 : k ∉ akeys rest := fun hm =>
            hk ((mem_akeys_cons p rest k).mpr (Or.inr hm))
          simpa [alookup, h] using ih.mpr h2

theorem alookup_of_mem_nodup {K V : Type} [DecidableEq K]
    {l : List (K × V)} {k : K} {v : V}
    (hnd : (akeys l).Nodup) (hmem : (k, v) ∈ l) : alookup l k = some v := by
  induction l with
  | nil => simp at hmem
  | cons p rest ih =>
      rcases List.mem_cons.mp hmem with heq | hmem'
      · subst heq
        simp [alookup]
      · have hnd' : (akeys rest).Nodup := (List.nodup_cons.mp hnd).2
        have hknotin : p.1 ∉ akeys rest := by
          simpa [akeys] using (List.nodup_cons.mp hnd).1
        have hkin : k ∈ akeys rest := by
          have : (k, v).1 ∈ List.map Prod.fst rest :=
            List.mem_map.mpr ⟨(k, v), hmem', rfl⟩
          simpa [akeys] using this
        have hne : p.1 ≠ k := fun h => hknotin (h ▸ hkin)
        simp [alookup, hne, ih hnd' hmem']

theorem mem_akeys_aerase_of_ne {K V : Type} [DecidableEq K]
    {l : List (K × V)} {k k' : K}
    (hmem : k' ∈ akeys l) (hne : k' ≠ k) : k' ∈ akeys (aerase l k) := by
  induction l with
  | nil => simp [akeys] at hmem
  | cons p rest ih =>
      by_cases h : p.1 = k
      · simp only [aerase, if_pos h]
        rcases (mem_akeys_cons p rest k').mp hmem with h1 | h1
        · exact absurd (h1.trans h) hne
        · exact h1
      · simp only [aerase, if_neg h]
        rcases (mem_akeys_cons p rest k').mp hmem with h1 | h1
        · exact (mem_akeys_cons p _ k').mpr (Or.inl h1)
        · exact (mem_akeys_cons p _ k').mpr (Or.inr (ih h1))

theorem akeys_aerase_sublist {K V : Type} [DecidableEq K]
    (l : List (K × V)) (k : K) : (akeys (aerase l k)).Sublist (akeys l) := by
  induction l with
  | nil => simp [aerase, akeys]
  | cons p rest ih =>
      by_cases h : p.1 = k
      · simp only [aerase, if_pos h]
        exact List.sublist_cons_of_sublist _ (List.Sublist.refl _)
      · simp only [aerase, if_neg h, akeys, List.map_cons]
        exact List.Sublist.cons₂ _ ih

theorem not_mem_akeys_aerase_self {K V : Type} [DecidableEq K]
    {l : List (K × V)} {k : K}
    (hnd : (akeys l).Nodup) : k ∉ akeys (aerase l k) := by
  induction l with
  | nil => simp [aerase, akeys]
  | cons p rest ih =>
      have hnd' : (p.1 :: akeys rest).Nodup := by simpa [akeys] using hnd
      by_cases h : p.1 = k
      · simp only [aerase, if_pos h]
        intro hk
        exact (List.nodup_cons.mp hnd').1 (h ▸ hk)
      · simp only [aerase, if_neg h]
        intro hk
        rcases (mem_akeys_cons p _ k).mp hk with h1 | h1
        · exact h h1.symm
        · exact ih (List.nodup_cons.mp hnd').2 h1

theorem alookup_aerase_self {K V : Type} [DecidableEq K]
    {l : List (K × V)} {k : K} (hnd : (akeys l).Nodup) :
    alookup (aerase l k) k = none :=
  (alookup_eq_none_iff _ _).mpr (not_mem_akeys_aerase_self hnd)

theorem alookup_append_left_none {K V : Type} [DecidableEq K]
    {l1 : List (K × V)} (l2 : List (K × V)) {k : K}
    (h : alookup l1 k = none) : alookup (l1 ++ l2) k = alookup l2 k := by
  induction l1 with
  | nil => simp
  | cons p rest ih =>
      by_cases hp : p.1 = k
      · simp [alookup, hp] at h
      · simp only [alookup, hp, if_neg hp, List.cons_append] at h ⊢
        exact ih h

theorem aerase_length_of_mem {K V : Type} [DecidableEq K]
    {l : List (K × V)} {k : K} (h : k ∈ akeys l) :
    (aerase l k).length + 1 = l.length := by
  induction l with
  | nil => simp [akeys] at h
  | cons p rest ih =>
      by_cases hp : p.1 = k
      · simp [aerase, hp]
      · have h' : k ∈ akeys rest := by
          rcases (mem_akeys_cons p rest k).mp h with h1 | h1
          · exact absurd h1.symm hp
          · exact h1
        simp only [aerase, if_neg hp, List.length_cons]
        rw [← ih h']

theorem alookup_dinsert_self {K V : Type} [DecidableEq K]
    (l : List (K × V)) (k : K) (v : V) : alookup (dinsert l k v) k = some v := by
  induction l with
  | nil => simp [dinsert, alookup]
  | cons p rest ih =>
      by_cases hp : p.1 = k
      · simp [dinsert, hp, alookup]
      · simp [dinsert, hp, alookup, ih]

/-! ## C1: clip_bounds_to_image -/

/-- C1 (counterexample): for the rect (2000, 1200, 100, 100), entirely off a
1920×1080 canvas, `clip_bounds_to_image` returns (1920, 1080, 1, 1), whose
right edge is at 1921 > 1920 and bottom edge at 1081 > 1080 — the claimed
conjunction (in particular x + width ≤ W and y + height ≤ H) is false. -/
theorem clip_bounds_to_image_spec_invariant_cex :
    ¬ (0 ≤ (clip_bounds_to_image ⟨2000, 1200, 100, 100⟩ 1920 1080).x ∧
       (clip_bounds_to_image ⟨2000, 1200, 100, 100⟩ 1920 1080).x ≤ 1920 ∧
       0 ≤ (clip_bounds_to_image ⟨2000, 1200, 100, 100⟩ 1920 1080).y ∧
       (clip_bounds_to_image ⟨2000, 1200, 100, 100⟩ 1920 1080).y ≤ 1080 ∧
       (clip_bounds_to_image ⟨2000, 1200, 100, 100⟩ 1920 1080).x +
         (clip_bounds_to_image ⟨2000, 1200, 100, 100⟩ 1920 1080).width ≤ 1920 ∧
       (clip_bounds_to_image ⟨2000, 1200, 100, 100⟩ 1920 1080).y +
         (clip_bounds_to_image ⟨2000, 1200, 100, 100⟩ 1920 1080).height ≤ 1080 ∧
       1 ≤ (clip_bounds_to_image ⟨2000, 1200, 100, 100⟩ 1920 1080).width ∧
       1 ≤ (clip_bounds_to_image ⟨2000, 1200, 100, 100⟩ 1920 1080).height) := by
  decide

/-- C1 (amended): for nonnegative image dimensions `clip_bounds_to_image`
always returns, without failing, a rect with 0 ≤ x ≤ W, 0 ≤ y ≤ H,
width ≥ 1 and height ≥ 1; the containment bounds x + width ≤ W and
y + height ≤ H hold whenever x < W (resp. y < H), while a rect entirely
off-canvas to the right (resp. bottom) degenerates to width 1 pinned at
x = W (resp. height 1 at y = H), one pixel past the edge. -/
theorem clip_bounds_to_image_invariants (r : Rect) (W H : Int)
    (hW : 0 ≤ W) (hH : 0 ≤ H) :
    0 ≤ (clip_bounds_to_image r W H).x ∧
    (clip_bounds_to_image r W H).x ≤ W ∧
    0 ≤ (clip_bounds_to_image r W H).y ∧
    (clip_bounds_to_image r W H).y ≤ H ∧
    1 ≤ (clip_bounds_to_image r W H).width ∧
    1 ≤ (clip_bounds_to_image r W H).height ∧
    ((clip_bounds_to_image r W H).x < W →
      (clip_bounds_to_image r W H).x + (clip_bounds_to_image r W H).width ≤ W) ∧
    ((clip_bounds_to_image r W H).y < H →
      (clip_bounds_to_image r W H).y + (clip_bounds_to_image r W H).height ≤ H) ∧
    ((clip_bounds_to_image r W H).x = W → (clip_bounds_to_image r W H).width = 1) ∧
    ((clip_bounds_to_image r W H).y = H → (clip_bounds_to_image r W H).height = 1) := by
  simp only [clip_bounds_to_image]
  omega

/-- C1 witness: the amended invariants instantiated at a partially
off-screen rect on a 1920×1080 image. -/
theorem clip_bounds_to_image_invariants_witness :
    0 ≤ (clip_bounds_to_image ⟨1800, 900, 300, 200⟩ 1920 1080).x ∧
    (clip_bounds_to_image ⟨1800, 900, 300, 200⟩ 1920 1080).x ≤ 1920 ∧
    0 ≤ (clip_bounds_to_image ⟨1800, 900, 300, 200⟩ 1920 1080).y ∧
    (clip_bounds_to_image ⟨1800, 900, 300, 200⟩ 1920 1080).y ≤ 1080 ∧
    1 ≤ (clip_bounds_to_image ⟨1800, 900, 300, 200⟩ 1920 1080).width ∧
    1 ≤ (clip_bounds_to_image ⟨1800, 900, 300, 200⟩ 1920 1080).height ∧
    ((clip_bounds_to_image ⟨1800, 900, 300, 200⟩ 1920 1080).x < 1920 →
      (clip_bounds_to_image ⟨1800, 900, 300, 200⟩ 1920 1080).x +
        (clip_bounds_to_image ⟨1800, 900, 300, 200⟩ 1920 1080).width ≤ 1920) ∧
    ((clip_bounds_to_image ⟨1800, 900, 300, 200⟩ 1920 1080).y < 1080 →
      (clip_bounds_to_image ⟨1800, 900, 300, 200⟩ 1920 1080).y +
        (clip_bounds_to_image ⟨1800, 900, 300, 200⟩ 1920 1080).height ≤ 1080) ∧
    ((clip_bounds_to_image ⟨1800, 900, 300, 200⟩ 1920 1080).x = 1920 →
      (clip_bounds_to_image ⟨1800, 900, 300, 200⟩ 1920 1080).width = 1) ∧
    ((clip_bounds_to_image ⟨1800, 900, 300, 200⟩ 1920 1080).y = 1080 →
      (clip_bounds_to_image ⟨1800, 900, 300, 200⟩ 1920 1080).height = 1) :=
  clip_bounds_to_image_invariants ⟨1800, 900, 300, 200⟩ 1920 1080
    (by decide) (by decide)

/-! ## C3: get_confidence_score -/

/-- C3: the confidence score equals the base score 1.0 minus the 0.1/0.2/0.3
penalties for slow query, fallback use and denied permission, clamped below
at 0; in particular score(1500, true, "denied") = 0.4, and the result always
lies in [0, 1]. -/
theorem get_confidence_score_spec :
    (∀ (latency : ℚ) (fb : Bool) (perm : Option String),
        get_confidence_score latency fb perm =
          max 0 (1 - (if latency > 1000 then (1 : ℚ)/10 else 0)
                   - (if fb then (2 : ℚ)/10 else 0)
                   - (if perm = some "denied" then (3 : ℚ)/10 else 0))
        ∧ 0 ≤ get_confidence_score latency fb perm
        ∧ get_confidence_score latency fb perm ≤ 1)
    ∧ get_confidence_score 1500 true (some "denied") = 2/5 := by
  constructor
  · intro latency fb perm
    unfold get_confidence_score
    refine ⟨?_, ?_, ?_⟩
    · split_ifs <;> norm_num
    · split_ifs <;> exact le_max_left _ _
    · split_ifs <;> exact max_le (by norm_num) (by norm_num)
  · unfold get_confidence_score
    norm_num

/-! ## C6: VisionCache TTL expiry -/

/-- C6: a VisionCache lookup performed when the entry's age strictly exceeds
the TTL returns a miss (none, with the miss counter incremented) and deletes
the expired entry within the same call, so a further lookup of the same hash
no longer finds it. -/
theorem vision_cache_expired_get (E : Type) (hash : List Nat → String)
    (c : VisionCache E) (b : List Nat) (now : ℚ) (entry : VCacheEntry E)
    (hfound : alookup c.cache (hash b) = some entry)
    (hexpired : c.ttl < now - entry.timestamp)
    (hnd : (akeys c.cache).Nodup) :
    VisionCache.get hash c b now =
      (none, { c with cache := aerase c.cache (hash b), misses := c.misses + 1 })
    ∧ alookup (VisionCache.get hash c b now).2.cache (hash b) = none := by
  have h1 : VisionCache.get hash c b now =
      (none, { c with cache := aerase c.cache (hash b),
                      misses := c.misses + 1 }) := by
    unfold VisionCache.get
    dsimp only
    rw [hfound]
    simp only [if_pos hexpired]
  refine ⟨h1, ?_⟩
  rw [h1]
  exact alookup_aerase_self hnd

/-- C6 witness: a cache holding one entry of timestamp 0 under TTL 300,
read at time 301. -/
theorem vision_cache_expired_get_witness :
    VisionCache.get (fun _ => "h")
      ({ cache := [("h", { elements := 7, timestamp := 0, image_hash := "h" })],
         ttl := 300, max_entries := 50, hits := 0, misses := 0 } : VisionCache Nat)
      [] 301 =
      (none, { cache := [], ttl := 300, max_entries := 50, hits := 0, misses := 1 })
    ∧ alookup (VisionCache.get (fun _ => "h")
        ({ cache := [("h", { elements := 7, timestamp := 0, image_hash := "h" })],
           ttl := 300, max_entries := 50, hits := 0, misses := 0 } : VisionCache Nat)
        [] 301).2.cache "h" = none := by
  have h := vision_cache_expired_get Nat (fun _ => "h")
    { cache := [("h", { elements := 7, timestamp := 0, image_hash := "h" })],
      ttl := 300, max_entries := 50, hits := 0, misses := 0 }
    [] 301 { elements := 7, timestamp := 0, image_hash := "h" }
    (by simp [alookup]) (by norm_num) (by simp [akeys])
  simpa [aerase] using h

/-! ## C10: capture_after without capture_before -/

/-- C10: calling capture_after when no "before" image was captured records
no step: it returns none, leaves the recorded-steps list unchanged, and
installs the freshly taken screenshot as the retained "before" image. -/
theorem capture_after_without_before (d : StepDetector) (ssim : Nat → Nat → ℚ)
    (screenshot : Nat) (now : ℚ) (description : String)
    (h : d.before = none) :
    d.capture_after ssim screenshot now description =
      (none, { d with before := some screenshot })
    ∧ (d.capture_after ssim screenshot now description).2.steps = d.steps
    ∧ (d.capture_after ssim screenshot now description).2.before = some screenshot := by
  unfold StepDetector.capture_after
  rw [h]
  exact ⟨rfl, rfl, rfl⟩

/-- C10 witness: a fresh detector (no "before" capture) at time 1. -/
theorem capture_after_without_before_witness :
    StepDetector.capture_after
      { config := DetectorConfig.default, steps := [], before := none,
        last_step_time := 0 }
      (fun _ _ => 1) 42 1 "" =
      (none, { config := DetectorConfig.default, steps := [], before := some 42,
               last_step_time := 0 }) := by
  have h := capture_after_without_before
    { config := DetectorConfig.default, steps := [], before := none,
      last_step_time := 0 }
    (fun _ _ => 1) 42 1 "" rfl
  exact h.1

/-! ## ElementCache lemmas -/

theorem akeys_append {K V : Type} (l1 l2 : List (K × V)) :
    akeys (l1 ++ l2) = akeys l1 ++ akeys l2 := by
  simp [akeys]

theorem alookup_mem_of_isSome {K V : Type} [DecidableEq K]
    {l : List (K × V)} {k : K} (h : (alookup l k).isSome) : k ∈ akeys l := by
  by_contra hk
  rw [(alookup_eq_none_iff l k).mpr hk] at h
  simp at h

theorem element_cache_get_fst {K V : Type} [DecidableEq K]
    (c : ElementCache K V) (k : K) : (c.get k).1 = alookup c.cache k := by
  unfold ElementCache.get
  cases h : alookup c.cache k <;> simp

theorem element_cache_put_absent_no_overflow {K V : Type} [DecidableEq K]
    (c : ElementCache K V) (k : K) (v : V)
    (habs : alookup c.cache k = none)
    (hroom : c.cache.length + 1 ≤ c.max_size) :
    c.put k v = { c with cache := c.cache ++ [(k, v)] } := by
  unfold ElementCache.put
  rw [habs]
  simp only [Option.isSome_none, Bool.false_eq_true, if_false]
  rw [if_neg]
  simp only [List.length_append, List.length_cons, List.length_nil]
  omega

theorem element_cache_put_absent_overflow {K V : Type} [DecidableEq K]
    (c : ElementCache K V) (k : K) (v : V)
    (habs : alookup c.cache k = none)
    (hfull : c.max_size ≤ c.cache.length) :
    c.put k v = { c with cache := (c.cache ++ [(k, v)]).tail } := by
  unfold ElementCache.put
  rw [habs]
  simp only [Option.isSome_none, Bool.false_eq_true, if_false]
  rw [if_pos]
  simp only [List.length_append, List.length_cons, List.length_nil]
  omega

theorem element_cache_putAll_extends {K V : Type} [DecidableEq K]
    (ps : List (K × V)) :
    ∀ (c : ElementCache K V),
    (akeys (c.cache ++ ps)).Nodup →
    c.cache.length + ps.length ≤ c.max_size →
    c.putAll ps = { c with cache := c.cache ++ ps } := by
  induction ps with
  | nil =>
      intro c _ _
      show c.putAll [] = _
      simp [ElementCache.putAll]
  | cons p rest ih =>
      intro c hnd hlen
      have habs : alookup c.cache p.1 = none := by
        rw [alookup_eq_none_iff]
        rw [akeys_append] at hnd
        have hdisj := (List.nodup_append.mp hnd).2.2
        intro hmem
        exact hdisj hmem (by simp [akeys])
      have hstep : c.put p.1 p.2 = { c with cache := c.cache ++ [p] } :=
        element_cache_put_absent_no_overflow c p.1 p.2 habs (by
          simp only [List.length_cons] at hlen
          omega)
      show ElementCache.putAll c (p :: rest) = _
      unfold ElementCache.putAll
      simp only [List.foldl_cons]
      rw [hstep]
      have hres := ih { c with cache := c.cache ++ [p] }
        (by simpa [List.append_assoc] using hnd)
        (by simp only [List.length_append, List.length_cons, List.length_nil]
            simp only [List.length_cons] at hlen
            omega)
      unfold ElementCache.putAll at hres
      rw [hres]
      simp [List.append_assoc]

theorem element_cache_putAll_over {K V : Type} [DecidableEq K]
    (ps : List (K × V)) :
    ∀ (c : ElementCache K V),
    (akeys (c.cache ++ ps)).Nodup →
    c.cache.length + ps.length = c.max_size + 1 →
    ps ≠ [] →
    (c.putAll ps).cache = (c.cache ++ ps).tail
    ∧ (c.putAll ps).max_size = c.max_size := by
  induction ps with
  | nil =>
      intro c _ _ hne
      exact absurd rfl hne
  | cons p rest ih =>
      intro c hnd hlen _
      have habs : alookup c.cache p.1 = none := by
        rw [alookup_eq_none_iff]
        rw [akeys_append] at hnd
        have hdisj := (List.nodup_append.mp hnd).2.2
        intro hmem
        exact hdisj hmem (by simp [akeys])
      cases rest with
      | nil =>
          have hstep : c.put p.1 p.2 = { c with cache := (c.cache ++ [p]).tail } :=
            element_cache_put_absent_overflow c p.1 p.2 habs (by
              simp only [List.length_cons, List.length_nil] at hlen
              omega)
          show ((ElementCache.putAll c [p]).cache = _) ∧ _
          unfold ElementCache.putAll
          simp only [List.foldl_cons, List.foldl_nil]
          rw [hstep]
          exact ⟨rfl, rfl⟩
      | cons q qs =>
          have hstep : c.put p.1 p.2 = { c with cache := c.cache ++ [p] } :=
            element_cache_put_absent_no_overflow c p.1 p.2 habs (by
              simp only [List.length_cons] at hlen
              omega)
          show ((ElementCache.putAll c (p :: q :: qs)).cache = _) ∧ _
          unfold ElementCache.putAll
          simp only [List.foldl_cons]
          rw [hstep]
          have hres := ih { c with cache := c.cache ++ [p] }
            (by simpa [List.append_assoc] using hnd)
            (by simp only [List.length_append, List.length_cons, List.length_nil]
                simp only [List.length_cons] at hlen
                omega)
            (by simp)
          unfold ElementCache.putAll at hres
          simp only [List.foldl_cons] at hres
          refine ⟨?_, hres.2⟩
          rw [hres.1]
          have harr : (c.cache ++ [p]) ++ q :: qs = c.cache ++ p :: q :: qs := by
            simp [List.append_assoc]
          rw [harr]

/-! ## C4: ElementCache LRU eviction, overwrite, hit rate -/

/-- C4: inserting max_size + 1 distinct keys into an empty ElementCache
evicts exactly the first (least-recently-accessed) entry — the final cache
holds the remaining entries, each still retrievable by get, while the first
key misses; a put on an already-present key never evicts anything (size and
key set preserved); and the hit rate with N hits and M misses is N/(N+M). -/
theorem element_cache_lru_spec :
    (∀ (n : Nat) (ps : List (Nat × Nat)),
       (akeys ps).Nodup → ps.length = n + 1 →
       ((ElementCache.empty Nat Nat n).putAll ps).cache = ps.tail
       ∧ (∀ p ∈ ps.tail,
            (((ElementCache.empty Nat Nat n).putAll ps).get p.1).1 = some p.2)
       ∧ (∀ p0, ps.head? = some p0 →
            (((ElementCache.empty Nat Nat n).putAll ps).get p0.1).1 = none))
    ∧ (∀ (c : ElementCache Nat Nat) (k v : Nat),
       (alookup c.cache k).isSome →
       (c.put k v).cache.length = c.cache.length
       ∧ ∀ k' ∈ akeys c.cache, k' ∈ akeys (c.put k v).cache)
    ∧ (∀ (c : ElementCache Nat Nat) (N M : Nat),
       c.hits = N → c.misses = M → 0 < N + M →
       c.hit_rate = (N : ℚ) / ((N : ℚ) + (M : ℚ))) := by
  refine ⟨?_, ?_, ?_⟩
  · intro n ps hnd hlen
    have hover := element_cache_putAll_over ps (ElementCache.empty Nat Nat n)
      (by simpa [ElementCache.empty] using hnd)
      (by simp [ElementCache.empty, hlen])
      (by intro h; rw [h] at hlen; simp at hlen)
    have hcache : ((ElementCache.empty Nat Nat n).putAll ps).cache = ps.tail := by
      rw [hover.1]
      simp [ElementCache.empty]
    have hndtail : (akeys ps.tail).Nodup := by
      cases ps with
      | nil => simp [akeys]
      | cons p rest =>
          simp only [List.tail_cons]
          have : (p.1 :: akeys rest).Nodup := by simpa [akeys] using hnd
          exact (List.nodup_cons.mp this).2
    refine ⟨hcache, ?_, ?_⟩
    · intro p hp
      rw [element_cache_get_fst, hcache]
      exact alookup_of_mem_nodup hndtail hp
    · intro p0 hp0
      rw [element_cache_get_fst, hcache]
      rw [alookup_eq_none_iff]
      cases ps with
      | nil => simp at hp0
      | cons p rest =>
          simp only [List.head?_cons, Option.some_inj] at hp0
          subst hp0
          simp only [List.tail_cons]
          have : (p.1 :: akeys rest).Nodup := by simpa [akeys] using hnd
          exact (List.nodup_cons.mp this).1
  · intro c k v hsome
    have hmemk : k ∈ akeys c.cache := alookup_mem_of_isSome hsome
    obtain ⟨w, hw⟩ := Option.isSome_iff_exists.mp hsome
    have hput : (c.put k v).cache = aerase c.cache k ++ [(k, w)] := by
      unfold ElementCache.put
      rw [hw]
      simp only [Option.isSome_some, if_true]
      unfold moveToEnd
      rw [hw]
    constructor
    · rw [hput]
      simp only [List.length_append, List.length_cons, List.length_nil]
      have := aerase_length_of_mem hmemk
      omega
    · intro k' hk'
      rw [hput, akeys_append]
      by_cases hkk : k' = k
      · subst hkk
        simp [akeys]
      · exact List.mem_append_left _ (mem_akeys_aerase_of_ne hk' hkk)
  · intro c N M hN hM hpos
    unfold ElementCache.hit_rate
    rw [hN, hM]
    rw [if_neg (by omega)]

/-- C4 witness: capacity 2, inserting keys 1, 2, 3; then the overwrite and
hit-rate parts at concrete caches. -/
theorem element_cache_lru_spec_witness :
    ((ElementCache.empty Nat Nat 2).putAll [(1, 10), (2, 20), (3, 30)]).cache
      = [(2, 20), (3, 30)]
    ∧ (((ElementCache.empty Nat Nat 2).putAll [(1, 10), (2, 20), (3, 30)]).get 2).1
      = some 20
    ∧ (((ElementCache.empty Nat Nat 2).putAll [(1, 10), (2, 20), (3, 30)]).get 1).1
      = none
    ∧ (({ cache := [(1, 10), (2, 20)], max_size := 2, hits := 0, misses := 0 }
          : ElementCache Nat Nat).put 1 99).cache.length = 2
    ∧ ({ cache := [], max_size := 2, hits := 3, misses := 1 }
          : ElementCache Nat Nat).hit_rate = (3 : ℚ) / ((3 : ℚ) + (1 : ℚ)) := by
  have h := element_cache_lru_spec
  have h1 := h.1 2 [(1, 10), (2, 20), (3, 30)] (by decide) (by decide)
  refine ⟨h1.1, h1.2.1 (2, 20) (by decide), h1.2.2 (1, 10) rfl, ?_, ?_⟩
  · exact (h.2.1 { cache := [(1, 10), (2, 20)], max_size := 2, hits := 0, misses := 0 } 1 99 (by decide)).1
  · exact h.2.2 { cache := [], max_size := 2, hits := 3, misses := 1 } 3 1 rfl rfl (by omega)

/-! ## C9: put on a present key does not replace the stored value -/

/-- C9: for a key already present in the ElementCache, put(key, newValue)
promotes the key to the most-recently-used position but keeps the original
stored value — a subsequent get returns the value of the first put, not
newValue. -/
theorem element_cache_put_existing_keeps_value {K V : Type} [DecidableEq K]
    (c : ElementCache K V) (k : K) (v v' : V)
    (hnd : (akeys c.cache).Nodup) (hmem : (k, v) ∈ c.cache) :
    ((c.put k v').get k).1 = some v
    ∧ (c.put k v').cache.getLast? = some (k, v) := by
  have hlook : alookup c.cache k = some v := alookup_of_mem_nodup hnd hmem
  have hput : (c.put k v').cache = aerase c.cache k ++ [(k, v)] := by
    unfold ElementCache.put
    rw [hlook]
    simp only [Option.isSome_some, if_true]
    unfold moveToEnd
    rw [hlook]
  constructor
  · rw [element_cache_get_fst, hput]
    rw [alookup_append_left_none _ (alookup_aerase_self hnd)]
    simp [alookup]
  · rw [hput]
    exact List.getLast?_concat _

/-- C9 witness: a cache holding (1, 10) and (2, 20); put 1 99 then get 1
still yields 10 and the promoted entry is (1, 10). -/
theorem element_cache_put_existing_keeps_value_witness :
    ((({ cache := [(1, 10), (2, 20)], max_size := 2, hits := 0, misses := 0 }
        : ElementCache Nat Nat).put 1 99).get 1).1 = some 10
    ∧ (({ cache := [(1, 10), (2, 20)], max_size := 2, hits := 0, misses := 0 }
        : ElementCache Nat Nat).put 1 99).cache.getLast? = some (1, 10) :=
  element_cache_put_existing_keeps_value
    { cache := [(1, 10), (2, 20)], max_size := 2, hits := 0, misses := 0 }
    1 10 99 (by decide) (by decide)

/-! ## C5: redetect (spec-modelled) -/

theorem renumberFrom_length (n : Nat) (l : List StepRecord) :
    (renumberFrom n l).length = l.length := by
  induction l generalizing n with
  | nil => rfl
  | cons s rest ih => simp [renumberFrom, ih]

theorem renumberFrom_map_eraseNum (n : Nat) (l : List StepRecord) :
    (renumberFrom n l).map eraseNum = l.map eraseNum := by
  induction l generalizing n with
  | nil => rfl
  | cons s rest ih => simp [renumberFrom, ih, eraseNum]

theorem renumberFrom_get (l : List StepRecord) :
    ∀ (n i : Nat) (h : i < (renumberFrom n l).length),
      ((renumberFrom n l).get ⟨i, h⟩).step_number = n + i := by
  induction l with
  | nil =>
      intro n i h
      simp [renumberFrom] at h
  | cons s rest ih =>
      intro n i h
      cases i with
      | zero => simp [renumberFrom]
      | succ j =>
          have h' : j < (renumberFrom (n + 1) rest).length := by
            simpa [renumberFrom] using h
          have := ih (n + 1) j h'
          simpa [renumberFrom, Nat.add_assoc, Nat.add_comm 1 j] using this

/-- C5 (spec-modelled): redetect with a stricter threshold removes exactly
the similarity-detected (non-manual) steps whose recorded score is not
below the new threshold, never removes a manual step (every manual step is
still present, up to renumbering), and renumbers the remaining steps
contiguously starting at 1. -/
theorem redetect_spec (d : StepDetector) (t : ℚ) :
    (∀ s ∈ d.steps,
       (s ∈ (d.redetect t).1 ↔ s.detection_method ≠ "manual" ∧ t ≤ s.ssim_score))
    ∧ (∀ s ∈ (d.redetect t).1, s.detection_method ≠ "manual")
    ∧ (d.redetect t).2.steps.map eraseNum
        = (d.steps.filter (keptByRedetect t)).map eraseNum
    ∧ (∀ s ∈ d.steps, s.detection_method = "manual" →
         eraseNum s ∈ (d.redetect t).2.steps.map eraseNum)
    ∧ (∀ (i : Nat) (h : i < (d.redetect t).2.steps.length),
        ((d.redetect t).2.steps.get ⟨i, h⟩).step_number = i + 1) := by
  have hfst : (d.redetect t).1 = d.steps.filter (fun s => !keptByRedetect t s) := rfl
  have hsnd : (d.redetect t).2.steps
      = renumberFrom 1 (d.steps.filter (keptByRedetect t)) := rfl
  refine ⟨?_, ?_, ?_, ?_, ?_⟩
  · intro s hs
    rw [hfst]
    rw [List.mem_filter]
    simp only [hs, true_and]
    unfold keptByRedetect
    simp only [Bool.not_or, Bool.and_eq_true, Bool.not_eq_true']
    constructor
    · intro ⟨h1, h2⟩
      exact ⟨by simpa using h1, by simpa [not_lt] using h2⟩
    · intro ⟨h1, h2⟩
      exact ⟨by simpa using h1, by simpa [not_lt] using h2⟩
  · intro s hs
    rw [hfst] at hs
    have := (List.mem_filter.mp hs).2
    unfold keptByRedetect at this
    simp only [Bool.not_or, Bool.and_eq_true, Bool.not_eq_true'] at this
    simpa using this.1
  · rw [hsnd]
    exact renumberFrom_map_eraseNum 1 _
  · intro s hs hman
    rw [hsnd, renumberFrom_map_eraseNum]
    have hkept : s ∈ d.steps.filter (keptByRedetect t) := by
      rw [List.mem_filter]
      refine ⟨hs, ?_⟩
      unfold keptByRedetect
      simp [hman]
    exact List.mem_map.mpr ⟨s, hkept, rfl⟩
  · intro i h
    have h2 : ((d.redetect t).2.steps.get ⟨i, h⟩).step_number = 1 + i :=
      renumberFrom_get (d.steps.filter (keptByRedetect t)) 1 i h
    omega

/-- C5 witness: threshold 0.70 on three concrete steps (scores 0.50 ssim,
0.85 ssim, 0.95 manual): the 0.85 ssim step is removed, the manual step
survives. -/
theorem redetect_spec_witness :
    stepSubtle ∈ (detectorW.redetect (7/10)).1
    ∧ stepSubtle.detection_method ≠ "manual"
    ∧ eraseNum stepManualW ∈ (detectorW.redetect (7/10)).2.steps.map eraseNum := by
  have h := redetect_spec detectorW (7/10)
  have hmem : stepSubtle ∈ detectorW.steps := by simp [detectorW]
  refine ⟨?_, ?_, ?_⟩
  · exact (h.1 stepSubtle hmem).mpr
      ⟨by simp [stepSubtle], by norm_num [stepSubtle]⟩
  · exact h.2.1 stepSubtle ((h.1 stepSubtle hmem).mpr
      ⟨by simp [stepSubtle], by norm_num [stepSubtle]⟩)
  · exact h.2.2.2.1 stepManualW (by simp [detectorW]) (by simp [stepManualW])

/-! ## C2: backoff skips the accessibility backend; success resets -/

theorem tryVisualFallback_shape (m : FallbackManager) (env : RequestEnv)
    (x y : Int) (sp : Option String) (app : Option String)
    (platform reason : String) (e : FMElementMetadata)
    (h : (m.tryVisualFallback env x y sp app platform reason).1 = some e) :
    e.source = "visual" ∧ e.fallback_used = true
    ∧ e.fallback_reason = some reason
    ∧ ∃ d, env.visualResult = some d ∧ e.confidence_score = d.confidence.getD (1/2) := by
  unfold FallbackManager.tryVisualFallback at h
  cases sp with
  | none => simp at h
  | some s =>
      cases hv : env.visualResult with
      | none =>
          rw [hv] at h
          simp at h
      | some d =>
          rw [hv] at h
          dsimp only at h
          rw [Option.some_inj] at h
          subst h
          exact ⟨rfl, rfl, rfl, d, rfl, rfl⟩

theorem isAppCachedUnsupported_preserves (m : FallbackManager)
    (app : String) (now : ℚ) :
    ((m.isAppCachedUnsupported app now).2).app_timeout_counts = m.app_timeout_counts
    ∧ ((m.isAppCachedUnsupported app now).2).config = m.config := by
  unfold FallbackManager.isAppCachedUnsupported
  cases alookup m.app_support_cache app with
  | none => exact ⟨rfl, rfl⟩
  | some supported =>
      dsimp only
      split_ifs <;> exact ⟨rfl, rfl⟩

theorem tryAccessibilityApi_backoff (m : FallbackManager) (env : RequestEnv)
    (x y : Int) (platform : String) (app : String)
    (happ : app ≠ "")
    (hcount : m.config.max_retries ≤ (alookup m.app_timeout_counts app).getD 0) :
    m.tryAccessibilityApi env x y platform (some app) = (none, m, false) := by
  have hb : (optTruthy (some app) &&
      decide (m.config.max_retries ≤ (alookup m.app_timeout_counts app).getD 0))
      = true := by
    simp [optTruthy, happ, hcount]
  unfold FallbackManager.tryAccessibilityApi
  dsimp only
  rw [if_pos hb]

/-- C2: once an app's consecutive-timeout counter has reached max_retries,
an identification request for that app never invokes the accessibility
backend (the invoked flag is false) and any element it returns comes from
the visual path (source "visual", fallback_used true); and a successful
accessibility query (below the backoff threshold, permission granted)
resets that app's counter to zero. -/
theorem fallback_backoff_and_reset :
    (∀ (m : FallbackManager) (env : RequestEnv) (x y : Int)
       (platform : String) (sp : Option String) (app : String),
       app ≠ "" →
       m.config.max_retries ≤ (alookup m.app_timeout_counts app).getD 0 →
       (m.getElementMetadataWithFallback env x y platform sp (some app)).2.2 = false
       ∧ ∀ e, (m.getElementMetadataWithFallback env x y platform sp (some app)).1
            = some e → e.source = "visual" ∧ e.fallback_used = true)
    ∧ (∀ (m : FallbackManager) (env : RequestEnv) (x y : Int)
       (platform : String) (app : String) (d : ElementDict),
       app ≠ "" →
       env.accessResult = .success d →
       (platform = "macos" → env.permissionGranted = true) →
       (alookup m.app_timeout_counts app).getD 0 < m.config.max_retries →
       alookup ((m.tryAccessibilityApi env x y platform (some app)).2.1).app_timeout_counts
         app = some 0) := by
  constructor
  · intro m env x y platform sp app happ hcount
    have ht : optTruthy (some app) = true := by simp [optTruthy, happ]
    unfold FallbackManager.getElementMetadataWithFallback
    dsimp only
    rw [if_pos ht]
    have hpres := isAppCachedUnsupported_preserves m app env.now
    cases hu : (m.isAppCachedUnsupported app env.now).1 with
    | true =>
        rw [if_pos rfl]
        dsimp only
        refine ⟨rfl, ?_⟩
        intro e he
        have := tryVisualFallback_shape _ env x y sp (some app) platform
          "unsupported" e he
        exact ⟨this.1, this.2.1⟩
    | false =>
        rw [if_neg (by simp)]
        have hcount2 : ((m.isAppCachedUnsupported app env.now).2).config.max_retries
            ≤ (alookup ((m.isAppCachedUnsupported app env.now).2).app_timeout_counts
                app).getD 0 := by
          rw [hpres.1, hpres.2]
          exact hcount
        have hback := tryAccessibilityApi_backoff
          { (m.isAppCachedUnsupported app env.now).2 with
              metrics_cache_misses :=
                ((m.isAppCachedUnsupported app env.now).2).metrics_cache_misses + 1 }
          env x y platform app happ hcount2
        rw [hback]
        dsimp only
        by_cases hv : (sp.isSome &&
            ((m.isAppCachedUnsupported app env.now).2).config.visual_fallback_enabled)
            = true
        · rw [if_pos hv]
          dsimp only
          refine ⟨rfl, ?_⟩
          intro e he
          have := tryVisualFallback_shape _ env x y sp (some app) platform
            "error" e he
          exact ⟨this.1, this.2.1⟩
        · rw [if_neg hv]
          exact ⟨rfl, by intro e he; simp at he⟩
  · intro m env x y platform app d happ hacc hperm hcount
    have hb : ¬ ((optTruthy (some app) &&
        decide (m.config.max_retries ≤ (alookup m.app_timeout_counts app).getD 0))
        = true) := by
      simp [not_le.mpr hcount]
    have hg : ¬ ((decide (platform = "macos") && !env.permissionGranted) = true) := by
      by_cases hp : platform = "macos"
      · simp [hp, hperm hp]
      · simp [hp]
    unfold FallbackManager.tryAccessibilityApi
    dsimp only
    rw [if_neg hb, if_neg hg, hacc]
    dsimp only
    rw [if_pos (by simp [optTruthy, happ] : optTruthy (some app) = true)]
    exact alookup_dinsert_self m.app_timeout_counts app 0

/-- C2 witness: "SlowApp" with counter 2 under max_retries 2 — the request
skips the backend and any result is visual; on a later successful query the
counter resets to 0. -/
theorem fallback_backoff_and_reset_witness :
    (slowAppManager.getElementMetadataWithFallback timeoutEnv 5 5 "windows"
      (some "shot.png") (some "SlowApp")).2.2 = false
    ∧ alookup (((FallbackManager.init FallbackConfig.default).tryAccessibilityApi
        successEnv 5 5 "windows" (some "SlowApp")).2.1).app_timeout_counts
        "SlowApp" = some 0 := by
  have h := fallback_backoff_and_reset
  refine ⟨?_, ?_⟩
  · exact (h.1 slowAppManager timeoutEnv 5 5 "windows" (some "shot.png") "SlowApp"
      (by decide) (by simp [slowAppManager, FallbackConfig.default, alookup])).1
  · exact h.2 (FallbackManager.init FallbackConfig.default) successEnv 5 5
      "windows" "SlowApp" accessDictW (by decide) rfl (by intro hp; rfl)
      (by simp [FallbackManager.init, FallbackConfig.default, alookup])

/-! ## C7: vision-path confidence cap -/

theorem analyze_with_fallback_confidence_le (es : Option (List ElementDict))
    (x y : Int) (e : ElementDict)
    (h : analyze_with_fallback es x y = some e) :
    e.confidence.getD (1/2) ≤ 7/10 := by
  unfold analyze_with_fallback at h
  cases es with
  | none => simp at h
  | some l =>
      cases l with
      | nil => simp at h
      | cons a rest =>
          dsimp only at h
          rw [Option.some_inj] at h
          subst h
          dsimp only
          by_cases hc : ((if rest.isEmpty then a
              else select_closest_element (a :: rest) x y).confidence.getD 0 > 7/10)
          · rw [if_pos hc]
            dsimp only
            norm_num
          · rw [if_neg hc]
            cases hcc : (if rest.isEmpty then a
                else select_closest_element (a :: rest) x y).confidence with
            | none =>
                simp only [Option.getD_none]
                norm_num
            | some q =>
                rw [hcc] at hc
                simp only [Option.getD_some] at hc ⊢
                exact not_lt.mp hc

/-- C7: every element delivered by the vision-based fallback chain — the
parsed model response normalized by _parse_response, selected and capped by
analyze_with_fallback, and wrapped by the FallbackManager's visual path —
carries a confidence score of at most 0.7, even when the parsed model
response reports a higher confidence. -/
theorem visual_fallback_confidence_cap
    (parsed : List RawItem) (m : FallbackManager) (env : RequestEnv)
    (x y : Int) (sp : Option String) (app : Option String)
    (platform reason : String) (e : FMElementMetadata)
    (henv : env.visualResult
      = analyze_with_fallback (parse_response_elements parsed) x y)
    (h : (m.tryVisualFallback env x y sp app platform reason).1 = some e) :
    e.confidence_score ≤ 7/10 := by
  obtain ⟨-, -, -, d, hd, hconf⟩ :=
    tryVisualFallback_shape m env x y sp app platform reason e h
  rw [henv] at hd
  rw [hconf]
  exact analyze_with_fallback_confidence_le _ x y d hd

/-- C7 witness: a model response reporting confidence 0.95 flows through the
vision chain and comes out with confidence exactly 0.7. -/
theorem visual_fallback_confidence_cap_witness :
    visionElemW.confidence_score ≤ 7/10 := by
  have henv : visionEnvW.visualResult
      = analyze_with_fallback (parse_response_elements parsedW) 55 70 := rfl
  have hd : analyze_with_fallback (parse_response_elements parsedW) 55 70
      = some { name := some "Save", type := some "button",
               bounds := some ⟨50, 60, 80, 30⟩, confidence := some (7/10),
               source := some "visual" } := by
    norm_num [analyze_with_fallback, parse_response_elements, parsedW,
      List.filterMap]
  have h : ((FallbackManager.init FallbackConfig.default).tryVisualFallback
      visionEnvW 55 70 (some "s.png") (some "App") "windows" "timeout").1
      = some visionElemW := by
    unfold FallbackManager.tryVisualFallback
    dsimp only
    rw [henv.trans hd]
    rfl
  exact visual_fallback_confidence_cap parsedW
    (FallbackManager.init FallbackConfig.default) visionEnvW 55 70
    (some "s.png") (some "App") "windows" "timeout" visionElemW henv h

/-! ## C8: vision-fallback results and the ElementCache -/

/-- C8 (counterexample): with an empty ElementCache, a failing element
identification and a succeeding vision fallback, the orchestrator renders
the visual element but the cache stays empty — the immediately repeated
get of the same bucketed key returns none instead of hitting, so the
claimed write-back (with fallback_used = true) does not happen. -/
theorem annotate_visual_not_cached_cex :
    (annotate_screenshot_identify (ElementCache.empty CacheKey OrchElem 100)
      orchEnvW (100, 200) "windows" (some "App") AnnotationConfig.default).1.source
      = "visual_fallback"
    ∧ ((annotate_screenshot_identify (ElementCache.empty CacheKey OrchElem 100)
        orchEnvW (100, 200) "windows" (some "App") AnnotationConfig.default).2.get
        (make_cache_key "windows" (some "App") 100 200)).1 = none := by
  constructor <;> rfl

/-- C8 (amended): when element identification yields nothing and the vision
fallback succeeds, the orchestrator renders the visual element (source
"visual_fallback", that element's bounds) but writes nothing back into the
ElementCache — the cache's entry list is unchanged, so an immediately
repeated request for the same bucketed coordinates misses again; in the
FallbackManager a successful visual fallback does carry fallback_used =
true with the fallback reason, but no ElementCache write occurs on the
vision path. -/
theorem annotate_visual_fallback_not_written_back :
    (∀ (cache : ElementCache CacheKey OrchElem) (env : OrchEnv)
       (coords : Int × Int) (platform : String) (app_name : Option String)
       (cfg : AnnotationConfig) (e : OrchElem),
       env.queryResult = none → env.visualResult = some e →
       alookup cache.cache (make_cache_key platform app_name coords.1 coords.2)
         = none →
       (annotate_screenshot_identify cache env coords platform app_name cfg).1.source
         = "visual_fallback"
       ∧ (annotate_screenshot_identify cache env coords platform app_name cfg).1.bounds
         = e.bounds
       ∧ (annotate_screenshot_identify cache env coords platform app_name cfg).2.cache
         = cache.cache)
    ∧ (∀ (m : FallbackManager) (env : RequestEnv) (x y : Int)
       (sp : Option String) (app : Option String) (platform reason : String)
       (e : FMElementMetadata),
       (m.tryVisualFallback env x y sp app platform reason).1 = some e →
       e.fallback_used = true ∧ e.fallback_reason = some reason) := by
  constructor
  · intro cache env coords platform app_name cfg e hq hv habs
    unfold annotate_screenshot_identify get_element_with_cache
    by_cases hec : cfg.enable_cache = true
    · rw [if_pos hec]
      unfold ElementCache.get
      dsimp only
      rw [habs]
      dsimp only
      rw [hq]
      dsimp only
      rw [hv]
      exact ⟨rfl, rfl, rfl⟩
    · rw [if_neg hec]
      dsimp only
      rw [hq]
      dsimp only
      rw [hv]
      exact ⟨rfl, rfl, rfl⟩
  · intro m env x y sp app platform reason e h
    have := tryVisualFallback_shape m env x y sp app platform reason e h
    exact ⟨this.2.1, this.2.2.1⟩

/-- C8 witness: the amended statement at the concrete inputs of the
counterexample, plus the FallbackManager's visual path on a timeout. -/
theorem annotate_visual_fallback_not_written_back_witness :
    (annotate_screenshot_identify (ElementCache.empty CacheKey OrchElem 100)
      orchEnvW (100, 200) "windows" (some "App") AnnotationConfig.default).1.bounds
      = orchVisualElemW.bounds
    ∧ (annotate_screenshot_identify (ElementCache.empty CacheKey OrchElem 100)
        orchEnvW (100, 200) "windows" (some "App") AnnotationConfig.default).2.cache
      = []
    ∧ timeoutVisualElemW.fallback_used = true := by
  have h := annotate_visual_fallback_not_written_back
  have h1 := h.1 (ElementCache.empty CacheKey OrchElem 100) orchEnvW (100, 200)
    "windows" (some "App") AnnotationConfig.default orchVisualElemW rfl rfl rfl
  refine ⟨h1.2.1, h1.2.2, ?_⟩
  exact (h.2 slowAppManager timeoutEnv 5 5 (some "shot.png") (some "SlowApp")
    "windows" "timeout" timeoutVisualElemW rfl).1

end Docugen
